import Mathlib

/-!
Verification of the VAD segmentation state machine in `get_conversation.py`
(function `vad_audio`, lines 13-74).

Modelling choices, all taken from the source:

* A `Frame` carries its raw PCM byte payload (modelled as `List Nat`, one
  entry per byte), a timestamp and a duration.  Timestamp and duration are
  only used by the source for the diagnostic `sys.stdout.write` markers,
  which the spec excludes from the functional contract, so they are carried
  but never read by the core definitions.
* `vad.is_speech(frame.bytes, sr)` is an external classifier; it is modelled
  as an opaque-to-the-algorithm function parameter
  `vad : List Nat → Nat → Bool` applied to `frame.bytes` and `sr`.
* `collections.deque(maxlen=n)` with right-appends is modelled as a list
  (oldest entry first) where appending beyond `maxlen` drops from the front
  (`deque_append`).  For `maxlen = 0` a Python deque silently stays empty on
  append, which `deque_append` reproduces (it drops everything).
* `num_padding_frames = int(padding_duration_ms / frame_duration_ms)`:
  for non-negative integers, Python float division followed by `int`
  truncation is floor division, i.e. `Nat` division.  (Exact for all inputs
  small enough that the IEEE-754 quotient is exact to the integer part,
  which covers every physically meaningful millisecond duration.)
* `num_voiced > 0.9 * ring_buffer.maxlen` compares an integer count with a
  Python float product.  We model it by the exact rational comparison
  `10 * num_voiced > 9 * maxlen`.  The two agree for every capacity below
  2^49: the double nearest to 0.9 exceeds 9/10 by 0.2 * 2^-53, so the
  rounded product `0.9 * c` differs from the rational 9c/10 by less than
  c * 2^-52, while the distance from 9c/10 to any other rational with
  denominator 10 is at least 1/10; and when 10 divides c the product rounds
  to the integer 9c/10 exactly.  In particular at the default capacity 10,
  `0.9 * 10 == 9.0` exactly, so `k = 9` does not fire and `k = 10` does,
  matching the strict comparison.  Likewise for `num_unvoiced`.
* The generator `yield`s are collected into a list, in order.  The source
  yields `b''.join([f.bytes for f, speech in voiced_frames])`; we factor
  this as: the machine emits the accumulator (`seg_frames`, a list of
  classified frames), and `vad_audio` maps the byte concatenation
  `seg_bytes` over the emitted segments.  `seg_bytes` is exactly the
  source's join expression.
-/

/-- A fixed-duration audio frame: raw byte payload, start timestamp and
duration.  Timestamp and duration feed only the diagnostic markers of the
source and are never read by the segmentation logic. -/
structure Frame where
  bytes : List Nat
  timestamp : Int
  duration : Int
deriving DecidableEq, Repr

/-- A frame paired with its boolean speech verdict, the `(frame, is_speech)`
pair the source stores in `ring_buffer` and `voiced_frames`. -/
abbrev ClassifiedFrame := Frame × Bool

/-- State of one run of the `vad_audio` loop: the deque capacity
(`ring_buffer.maxlen`), the deque contents (oldest first), the `triggered`
flag and the `voiced_frames` accumulator. -/
structure VadState where
  maxlen : Nat
  ring_buffer : List ClassifiedFrame
  triggered : Bool
  voiced_frames : List ClassifiedFrame
deriving DecidableEq, Repr

/-- `collections.deque(maxlen=m).append(x)`: append on the right, evict from
the left whenever the length would exceed `m` (for `m = 0` the deque stays
empty). -/
def deque_append (m : Nat) (buf : List ClassifiedFrame) (x : ClassifiedFrame) :
    List ClassifiedFrame :=
  (buf ++ [x]).drop ((buf ++ [x]).length - m)

/-- `len([f for f, speech in buf if speech])` — the speech-classified entries
of the buffer (source line 57). -/
def num_voiced (buf : List ClassifiedFrame) : Nat :=
  (buf.filter fun p => p.2).length

/-- `len([f for f, speech in buf if not speech])` — the non-speech entries of
the buffer (source line 66). -/
def num_unvoiced (buf : List ClassifiedFrame) : Nat :=
  (buf.filter fun p => !p.2).length

/-- One iteration of the `for frame in audio` loop (source lines 50-72).
Returns the successor state and, when the `TRIGGERED → NOT_TRIGGERED` release
fires, the emitted accumulator contents (`some voiced_frames`).  The float
threshold comparisons are modelled exactly as explained in the header. -/
def vadStep (vad : List Nat → Nat → Bool) (sr : Nat) (s : VadState)
    (frame : Frame) : VadState × Option (List ClassifiedFrame) :=
  let is_speech := vad frame.bytes sr
  if s.triggered = false then
    let rb := deque_append s.maxlen s.ring_buffer (frame, is_speech)
    if rb.length = s.maxlen then
      if 10 * num_voiced rb > 9 * s.maxlen then
        ({ maxlen := s.maxlen, ring_buffer := [], triggered := true,
           voiced_frames := s.voiced_frames ++ rb }, none)
      else
        ({ s with ring_buffer := rb }, none)
    else
      ({ s with ring_buffer := rb }, none)
  else
    let voiced := s.voiced_frames ++ [(frame, is_speech)]
    let rb := deque_append s.maxlen s.ring_buffer (frame, is_speech)
    if 10 * num_unvoiced rb > 9 * s.maxlen then
      ({ maxlen := s.maxlen, ring_buffer := [], triggered := false,
         voiced_frames := [] }, some voiced)
    else
      ({ s with ring_buffer := rb, voiced_frames := voiced }, none)

/-- The whole `for` loop from a given state: final state plus the list of
emitted segments (each a list of classified frames), in emission order. -/
def vadLoop (vad : List Nat → Nat → Bool) (sr : Nat) :
    VadState → List Frame → VadState × List (List ClassifiedFrame)
  | s, [] => (s, [])
  | s, frame :: rest =>
    let r := vadStep vad sr s frame
    let t := vadLoop vad sr r.1 rest
    (t.1, r.2.toList ++ t.2)

/-- The initial state of a run: empty deque of capacity `m`,
`triggered = False`, empty accumulator (source lines 46-49). -/
def initState (m : Nat) : VadState :=
  { maxlen := m, ring_buffer := [], triggered := false, voiced_frames := [] }

/-- All segments of a run at frame level: the loop's emissions followed by
the end-of-input flush `if voiced_frames: yield ...` (source lines 73-74). -/
def vadSegs (vad : List Nat → Nat → Bool) (sr : Nat) (m : Nat)
    (audio : List Frame) : List (List ClassifiedFrame) :=
  let r := vadLoop vad sr (initState m) audio
  r.2 ++ (if r.1.voiced_frames = [] then [] else [r.1.voiced_frames])

/-- `b''.join([f.bytes for f, speech in seg])` — the byte payload of an
emitted segment (source lines 70 and 74). -/
def seg_bytes (seg : List ClassifiedFrame) : List Nat :=
  (seg.map fun p => p.1.bytes).flatten

/-- `int(padding_duration_ms / frame_duration_ms)` (source line 45). -/
def num_padding_frames (padding_duration_ms frame_duration_ms : Nat) : Nat :=
  padding_duration_ms / frame_duration_ms

/-- `vad_audio` (source lines 13-74): the full run, yielding the byte
buffers of all emitted segments in order. -/
def vad_audio (vad : List Nat → Nat → Bool) (audio : List Frame) (sr : Nat)
    (frame_duration_ms padding_duration_ms : Nat) : List (List Nat) :=
  (vadSegs vad sr (num_padding_frames padding_duration_ms frame_duration_ms)
    audio).map seg_bytes

/-- The classified frame the machine stores for an input frame. -/
def classifyFrame (vad : List Nat → Nat → Bool) (sr : Nat) (f : Frame) :
    ClassifiedFrame :=
  (f, vad f.bytes sr)

/-- The sequence of states the loop passes through (initial state included,
one further state after each consumed frame; the last entry is the final
state). -/
def runStates (vad : List Nat → Nat → Bool) (sr : Nat) :
    VadState → List Frame → List VadState
  | s, [] => [s]
  | s, frame :: rest => s :: runStates vad sr (vadStep vad sr s frame).1 rest

/-- Run invariant: the accumulator is empty exactly outside a segment, and
inside a segment it holds at least `maxlen` frames (with `maxlen ≥ 1`). -/
def StateInv (s : VadState) : Prop :=
  (s.triggered = false → s.voiced_frames = []) ∧
  (s.triggered = true → 1 ≤ s.maxlen ∧ s.maxlen ≤ s.voiced_frames.length)

/-- Interleaving of `gaps.length = segs.length + 1` skipped-frame runs with
the emitted segments: `g0 ++ s0 ++ g1 ++ s1 ++ ... ++ s(n-1) ++ gn`.  Used to
state that segments and skipped frames partition the input. -/
def interleaveJoin :
    List (List ClassifiedFrame) → List (List ClassifiedFrame) →
      List ClassifiedFrame
  | [], _ => []
  | g :: _, [] => g
  | g :: gs, seg :: segs => g ++ seg ++ interleaveJoin gs segs

/-- The classified frames a state still holds whose fate (segment or
skipped) is undecided: the accumulator while triggered, the ring buffer
otherwise. -/
def pending (s : VadState) : List ClassifiedFrame :=
  if s.triggered = true then s.voiced_frames else s.ring_buffer

-- Concrete test fixtures: a one-byte speech frame and a silence frame,
-- classified by payload, plus the scenario inputs of the spec.
def speechFrame : Frame := { bytes := [1], timestamp := 0, duration := 30 }

def silenceFrame : Frame := { bytes := [0], timestamp := 0, duration := 30 }

def testVad : List Nat → Nat → Bool := fun b _ => b = [1]

/-- Scenario A input: 20 non-speech frames. -/
def audioA : List Frame := List.replicate 20 silenceFrame

/-- Scenario B input: 10 non-speech, 5 speech, 10 non-speech frames. -/
def audioB : List Frame :=
  List.replicate 10 silenceFrame ++ List.replicate 5 speechFrame ++
    List.replicate 10 silenceFrame

/-- Scenario D style input: 10 non-speech then 12 speech frames, so the run
ends with the trigger still active. -/
def audioC : List Frame :=
  List.replicate 10 silenceFrame ++ List.replicate 12 speechFrame

/-- A second classifier that agrees with `testVad` on the test frames but is
a different function: it looks only at the first byte. -/
def testVad2 : List Nat → Nat → Bool := fun b _ => b.headD 0 == 1

/-- A pre-trigger state one speech frame away from firing at capacity 10. -/
def stateNine : VadState :=
  { maxlen := 10, ring_buffer := List.replicate 9 (speechFrame, true),
    triggered := false, voiced_frames := [] }

/-- A triggered state at capacity 1 holding one accumulated frame. -/
def stateTrig : VadState :=
  { maxlen := 1, ring_buffer := [], triggered := true,
    voiced_frames := [(speechFrame, true)] }

/-! Basic properties of the deque and of one loop iteration. -/

theorem length_deque_append (m : Nat) (buf : List ClassifiedFrame)
    (x : ClassifiedFrame) :
    (deque_append m buf x).length = min (buf.length + 1) m := by
  simp [deque_append]
  omega

theorem deque_append_decomp (m : Nat) (buf : List ClassifiedFrame)
    (x : ClassifiedFrame) :
    buf ++ [x] =
      (buf ++ [x]).take ((buf ++ [x]).length - m) ++ deque_append m buf x := by
  simp [deque_append]

theorem vadStep_nf_stay (vad : List Nat → Nat → Bool) (sr : Nat)
    (s : VadState) (frame : Frame) (ht : s.triggered = false)
    (h : (deque_append s.maxlen s.ring_buffer
        (classifyFrame vad sr frame)).length ≠ s.maxlen) :
    vadStep vad sr s frame =
      ({ s with ring_buffer :=
          deque_append s.maxlen s.ring_buffer (classifyFrame vad sr frame) },
        none) := by
  simp only [vadStep, classifyFrame] at *
  rw [if_pos ht, if_neg h]

theorem vadStep_nf_nofire (vad : List Nat → Nat → Bool) (sr : Nat)
    (s : VadState) (frame : Frame) (ht : s.triggered = false)
    (hfull : (deque_append s.maxlen s.ring_buffer
        (classifyFrame vad sr frame)).length = s.maxlen)
    (hv : ¬ 10 * num_voiced
        (deque_append s.maxlen s.ring_buffer (classifyFrame vad sr frame)) >
        9 * s.maxlen) :
    vadStep vad sr s frame =
      ({ s with ring_buffer :=
          deque_append s.maxlen s.ring_buffer (classifyFrame vad sr frame) },
        none) := by
  simp only [vadStep, classifyFrame] at *
  rw [if_pos ht, if_pos hfull, if_neg hv]

theorem vadStep_fire (vad : List Nat → Nat → Bool) (sr : Nat)
    (s : VadState) (frame : Frame) (ht : s.triggered = false)
    (hfull : (deque_append s.maxlen s.ring_buffer
        (classifyFrame vad sr frame)).length = s.maxlen)
    (hv : 10 * num_voiced
        (deque_append s.maxlen s.ring_buffer (classifyFrame vad sr frame)) >
        9 * s.maxlen) :
    vadStep vad sr s frame =
      ({ maxlen := s.maxlen, ring_buffer := [], triggered := true,
         voiced_frames := s.voiced_frames ++
           deque_append s.maxlen s.ring_buffer (classifyFrame vad sr frame) },
        none) := by
  simp only [vadStep, classifyFrame] at *
  rw [if_pos ht, if_pos hfull, if_pos hv]

theorem vadStep_t_release (vad : List Nat → Nat → Bool) (sr : Nat)
    (s : VadState) (frame : Frame) (ht : s.triggered = true)
    (hu : 10 * num_unvoiced
        (deque_append s.maxlen s.ring_buffer (classifyFrame vad sr frame)) >
        9 * s.maxlen) :
    vadStep vad sr s frame =
      ({ maxlen := s.maxlen, ring_buffer := [], triggered := false,
         voiced_frames := [] },
        some (s.voiced_frames ++ [classifyFrame vad sr frame])) := by
  have ht2 : ¬ s.triggered = false := by simp [ht]
  simp only [vadStep, classifyFrame] at *
  rw [if_neg ht2, if_pos hu]

theorem vadStep_t_stay (vad : List Nat → Nat → Bool) (sr : Nat)
    (s : VadState) (frame : Frame) (ht : s.triggered = true)
    (hu : ¬ 10 * num_unvoiced
        (deque_append s.maxlen s.ring_buffer (classifyFrame vad sr frame)) >
        9 * s.maxlen) :
    vadStep vad sr s frame =
      ({ s with
          ring_buffer :=
            deque_append s.maxlen s.ring_buffer (classifyFrame vad sr frame),
          voiced_frames := s.voiced_frames ++ [classifyFrame vad sr frame] },
        none) := by
  have ht2 : ¬ s.triggered = false := by simp [ht]
  simp only [vadStep, classifyFrame] at *
  rw [if_neg ht2, if_neg hu]

theorem num_voiced_le_length (buf : List ClassifiedFrame) :
    num_voiced buf ≤ buf.length :=
  List.length_filter_le _ _

/-- If the speech-count trigger condition holds on a buffer of length
`maxlen`, the capacity is positive. -/
theorem maxlen_pos_of_fire (m : Nat) (buf : List ClassifiedFrame)
    (hfull : buf.length = m) (hv : 10 * num_voiced buf > 9 * m) : 1 ≤ m := by
  have h1 := num_voiced_le_length buf
  omega

/-- The loop never changes the deque capacity. -/
theorem vadStep_maxlen (vad : List Nat → Nat → Bool) (sr : Nat)
    (s : VadState) (frame : Frame) :
    (vadStep vad sr s frame).1.maxlen = s.maxlen := by
  by_cases ht : s.triggered = false
  · by_cases hfull : (deque_append s.maxlen s.ring_buffer
        (classifyFrame vad sr frame)).length = s.maxlen
    · by_cases hv : 10 * num_voiced
          (deque_append s.maxlen s.ring_buffer (classifyFrame vad sr frame)) >
          9 * s.maxlen
      · rw [vadStep_fire vad sr s frame ht hfull hv]
      · rw [vadStep_nf_nofire vad sr s frame ht hfull hv]
    · rw [vadStep_nf_stay vad sr s frame ht hfull]
  · have ht1 : s.triggered = true := by
      cases h : s.triggered
      · exact absurd h ht
      · rfl
    by_cases hu : 10 * num_unvoiced
        (deque_append s.maxlen s.ring_buffer (classifyFrame vad sr frame)) >
        9 * s.maxlen
    · rw [vadStep_t_release vad sr s frame ht1 hu]
    · rw [vadStep_t_stay vad sr s frame ht1 hu]

theorem stateInv_init (m : Nat) : StateInv (initState m) := by
  constructor
  · intro _; rfl
  · intro h; exact absurd h (by simp [initState])

theorem stateInv_step (vad : List Nat → Nat → Bool) (sr : Nat)
    (s : VadState) (frame : Frame) (hs : StateInv s) :
    StateInv (vadStep vad sr s frame).1 := by
  by_cases ht : s.triggered = false
  · by_cases hfull : (deque_append s.maxlen s.ring_buffer
        (classifyFrame vad sr frame)).length = s.maxlen
    · by_cases hv : 10 * num_voiced
          (deque_append s.maxlen s.ring_buffer (classifyFrame vad sr frame)) >
          9 * s.maxlen
      · rw [vadStep_fire vad sr s frame ht hfull hv]
        have hm := maxlen_pos_of_fire s.maxlen _ hfull hv
        refine ⟨fun h => by simp at h, fun _ => ⟨hm, ?_⟩⟩
        simp [hs.1 ht, hfull]
      · rw [vadStep_nf_nofire vad sr s frame ht hfull hv]
        exact ⟨fun _ => hs.1 ht, fun h => by simp [ht] at h⟩
    · rw [vadStep_nf_stay vad sr s frame ht hfull]
      exact ⟨fun _ => hs.1 ht, fun h => by simp [ht] at h⟩
  · have ht1 : s.triggered = true := by
      cases h : s.triggered
      · exact absurd h ht
      · rfl
    by_cases hu : 10 * num_unvoiced
        (deque_append s.maxlen s.ring_buffer (classifyFrame vad sr frame)) >
        9 * s.maxlen
    · rw [vadStep_t_release vad sr s frame ht1 hu]
      exact ⟨fun _ => rfl, fun h => by simp at h⟩
    · rw [vadStep_t_stay vad sr s frame ht1 hu]
      refine ⟨fun h => absurd h ht, fun _ => ?_⟩
      have h2 := (hs.2 ht1).2
      have h1 := (hs.2 ht1).1
      constructor
      · exact h1
      · simp only [List.length_append, List.length_cons, List.length_nil]
        omega

/-- Case-analysis principle for one loop iteration: the three result shapes
of `vadStep`, each with the branch conditions that produce it. -/
theorem vadStep_cases (vad : List Nat → Nat → Bool) (sr : Nat) (s : VadState)
    (frame : Frame) {motive : VadState × Option (List ClassifiedFrame) → Prop}
    (hstay : s.triggered = false →
      ¬ ((deque_append s.maxlen s.ring_buffer
            (classifyFrame vad sr frame)).length = s.maxlen ∧
          10 * num_voiced (deque_append s.maxlen s.ring_buffer
            (classifyFrame vad sr frame)) > 9 * s.maxlen) →
      motive ({ s with ring_buffer := deque_append s.maxlen s.ring_buffer (classifyFrame vad sr frame) }, none))
    (hfire : s.triggered = false →
      (deque_append s.maxlen s.ring_buffer
        (classifyFrame vad sr frame)).length = s.maxlen →
      10 * num_voiced (deque_append s.maxlen s.ring_buffer
        (classifyFrame vad sr frame)) > 9 * s.maxlen →
      motive ({ maxlen := s.maxlen, ring_buffer := [], triggered := true, voiced_frames := s.voiced_frames ++ deque_append s.maxlen s.ring_buffer (classifyFrame vad sr frame) }, none))
    (hrel : s.triggered = true →
      10 * num_unvoiced (deque_append s.maxlen s.ring_buffer
        (classifyFrame vad sr frame)) > 9 * s.maxlen →
      motive ({ maxlen := s.maxlen, ring_buffer := [], triggered := false, voiced_frames := [] }, some (s.voiced_frames ++ [classifyFrame vad sr frame])))
    (htstay : s.triggered = true →
      ¬ 10 * num_unvoiced (deque_append s.maxlen s.ring_buffer
        (classifyFrame vad sr frame)) > 9 * s.maxlen →
      motive ({ s with ring_buffer := deque_append s.maxlen s.ring_buffer (classifyFrame vad sr frame), voiced_frames := s.voiced_frames ++ [classifyFrame vad sr frame] }, none)) :
    motive (vadStep vad sr s frame) := by
  by_cases ht : s.triggered = false
  · by_cases hfull : (deque_append s.maxlen s.ring_buffer
        (classifyFrame vad sr frame)).length = s.maxlen
    · by_cases hv : 10 * num_voiced
          (deque_append s.maxlen s.ring_buffer (classifyFrame vad sr frame)) >
          9 * s.maxlen
      · rw [vadStep_fire vad sr s frame ht hfull hv]
        exact hfire ht hfull hv
      · rw [vadStep_nf_nofire vad sr s frame ht hfull hv]
        exact hstay ht (fun hc => hv hc.2)
    · rw [vadStep_nf_stay vad sr s frame ht hfull]
      exact hstay ht (fun hc => hfull hc.1)
  · have ht1 : s.triggered = true := by
      cases h : s.triggered
      · exact absurd h ht
      · rfl
    by_cases hu : 10 * num_unvoiced
        (deque_append s.maxlen s.ring_buffer (classifyFrame vad sr frame)) >
        9 * s.maxlen
    · rw [vadStep_t_release vad sr s frame ht1 hu]
      exact hrel ht1 hu
    · rw [vadStep_t_stay vad sr s frame ht1 hu]
      exact htstay ht1 hu

theorem vadLoop_nil (vad : List Nat → Nat → Bool) (sr : Nat) (s : VadState) :
    vadLoop vad sr s [] = (s, []) := rfl

theorem vadLoop_cons (vad : List Nat → Nat → Bool) (sr : Nat) (s : VadState)
    (frame : Frame) (rest : List Frame) :
    vadLoop vad sr s (frame :: rest) =
      ((vadLoop vad sr (vadStep vad sr s frame).1 rest).1,
        (vadStep vad sr s frame).2.toList ++
          (vadLoop vad sr (vadStep vad sr s frame).1 rest).2) := rfl

theorem vadLoop_maxlen (vad : List Nat → Nat → Bool) (sr : Nat)
    (frames : List Frame) (s : VadState) :
    (vadLoop vad sr s frames).1.maxlen = s.maxlen := by
  induction frames generalizing s with
  | nil => rfl
  | cons f rest ih =>
      rw [vadLoop_cons]
      exact (ih _).trans (vadStep_maxlen vad sr s f)

theorem stateInv_loop (vad : List Nat → Nat → Bool) (sr : Nat)
    (frames : List Frame) (s : VadState) (hs : StateInv s) :
    StateInv (vadLoop vad sr s frames).1 := by
  induction frames generalizing s with
  | nil => exact hs
  | cons f rest ih =>
      rw [vadLoop_cons]
      exact ih _ (stateInv_step vad sr s f hs)

theorem runStates_nil (vad : List Nat → Nat → Bool) (sr : Nat) (s : VadState) :
    runStates vad sr s [] = [s] := rfl

theorem runStates_cons (vad : List Nat → Nat → Bool) (sr : Nat) (s : VadState)
    (frame : Frame) (rest : List Frame) :
    runStates vad sr s (frame :: rest) =
      s :: runStates vad sr (vadStep vad sr s frame).1 rest := rfl

theorem mem_runStates_inv (vad : List Nat → Nat → Bool) (sr : Nat)
    (frames : List Frame) (s : VadState) (hs : StateInv s) :
    ∀ t ∈ runStates vad sr s frames, StateInv t := by
  induction frames generalizing s with
  | nil =>
      intro t htm
      rw [runStates_nil] at htm
      simp at htm
      rwa [htm]
  | cons f rest ih =>
      intro t htm
      rw [runStates_cons] at htm
      rcases List.mem_cons.1 htm with h | h
      · rwa [h]
      · exact ih _ (stateInv_step vad sr s f hs) t h

theorem mem_runStates_maxlen (vad : List Nat → Nat → Bool) (sr : Nat)
    (frames : List Frame) (s : VadState) :
    ∀ t ∈ runStates vad sr s frames, t.maxlen = s.maxlen := by
  induction frames generalizing s with
  | nil =>
      intro t htm
      rw [runStates_nil] at htm
      simp at htm
      rw [htm]
  | cons f rest ih =>
      intro t htm
      rw [runStates_cons] at htm
      rcases List.mem_cons.1 htm with h | h
      · rw [h]
      · exact (ih _ t h).trans (vadStep_maxlen vad sr s f)

theorem vadLoop_fst_mem_runStates (vad : List Nat → Nat → Bool) (sr : Nat)
    (frames : List Frame) (s : VadState) :
    (vadLoop vad sr s frames).1 ∈ runStates vad sr s frames := by
  induction frames generalizing s with
  | nil =>
      rw [vadLoop_nil, runStates_nil]
      exact List.mem_singleton.2 rfl
  | cons f rest ih =>
      rw [vadLoop_cons, runStates_cons]
      exact List.mem_cons_of_mem s (ih _)

/-- Every segment emitted during the loop from an invariant state has at
least `maxlen` frames, and is non-empty. -/
theorem vadLoop_segs_len (vad : List Nat → Nat → Bool) (sr : Nat)
    (frames : List Frame) (s : VadState) (hs : StateInv s) :
    ∀ seg ∈ (vadLoop vad sr s frames).2,
      s.maxlen ≤ seg.length ∧ seg ≠ [] := by
  induction frames generalizing s with
  | nil =>
      intro seg h
      rw [vadLoop_nil] at h
      simp at h
  | cons f rest ih =>
      intro seg hseg
      rw [vadLoop_cons] at hseg
      rcases List.mem_append.1 hseg with h | h
      · revert h
        apply vadStep_cases vad sr s f
          (motive := fun r => seg ∈ r.2.toList →
            s.maxlen ≤ seg.length ∧ seg ≠ [])
        · intro _ _ h; simp at h
        · intro _ _ _ h; simp at h
        · intro ht _ h
          simp only [Option.toList_some, List.mem_singleton] at h
          subst h
          have h2 := (hs.2 ht).2
          constructor
          · simp only [List.length_append, List.length_cons, List.length_nil]
            omega
          · simp
        · intro _ _ h; simp at h
      · have hs2 := stateInv_step vad sr s f hs
        have h3 := ih _ hs2 seg h
        rwa [vadStep_maxlen vad sr s f] at h3

/-- The step is determined by the classified frame alone: two frames with
identical `(frame, is_speech)` classification produce identical steps, for
any classifiers and sample rates. -/
theorem vadStep_congr (vad1 vad2 : List Nat → Nat → Bool) (sr1 sr2 : Nat)
    (s : VadState) (f1 f2 : Frame)
    (h : classifyFrame vad1 sr1 f1 = classifyFrame vad2 sr2 f2) :
    vadStep vad1 sr1 s f1 = vadStep vad2 sr2 s f2 := by
  have hf : f1 = f2 := congrArg Prod.fst h
  subst hf
  have hb : vad1 f1.bytes sr1 = vad2 f1.bytes sr2 := congrArg Prod.snd h
  simp only [vadStep, hb]

theorem vadLoop_congr (vad1 vad2 : List Nat → Nat → Bool) (sr1 sr2 : Nat)
    (a1 a2 : List Frame) (s : VadState)
    (h : a1.map (classifyFrame vad1 sr1) = a2.map (classifyFrame vad2 sr2)) :
    vadLoop vad1 sr1 s a1 = vadLoop vad2 sr2 s a2 := by
  induction a1 generalizing s a2 with
  | nil =>
      cases a2 with
      | nil => rfl
      | cons g r2 => simp at h
  | cons f rest ih =>
      cases a2 with
      | nil => simp at h
      | cons g r2 =>
          simp only [List.map_cons, List.cons.injEq] at h
          have hstep := vadStep_congr vad1 vad2 sr1 sr2 s f g h.1
          rw [vadLoop_cons, vadLoop_cons, hstep, ih r2 _ h.2]

/-- With capacity zero the deque stays empty and every step is a silent
no-op from the initial state. -/
theorem vadStep_capacity_zero (vad : List Nat → Nat → Bool) (sr : Nat)
    (f : Frame) : vadStep vad sr (initState 0) f = (initState 0, none) := by
  have hd : deque_append (initState 0).maxlen (initState 0).ring_buffer
      (classifyFrame vad sr f) = [] := by
    simp [deque_append, initState]
  rw [vadStep_nf_nofire vad sr (initState 0) f rfl (by rw [hd]; rfl)
    (by rw [hd]; simp [num_voiced, initState])]
  rw [hd]
  simp [initState]

theorem vadLoop_capacity_zero (vad : List Nat → Nat → Bool) (sr : Nat)
    (audio : List Frame) :
    vadLoop vad sr (initState 0) audio = (initState 0, []) := by
  induction audio with
  | nil => rfl
  | cons f rest ih =>
      rw [vadLoop_cons, vadStep_capacity_zero, ih]
      rfl

theorem runStates_capacity_zero (vad : List Nat → Nat → Bool) (sr : Nat)
    (audio : List Frame) :
    ∀ t ∈ runStates vad sr (initState 0) audio, t = initState 0 := by
  induction audio with
  | nil =>
      intro t htm
      rw [runStates_nil] at htm
      simpa using htm
  | cons f rest ih =>
      intro t htm
      rw [runStates_cons, vadStep_capacity_zero] at htm
      rcases List.mem_cons.1 htm with h | h
      · exact h
      · exact ih t h

theorem vadSegs_capacity_zero (vad : List Nat → Nat → Bool) (sr : Nat)
    (audio : List Frame) : vadSegs vad sr 0 audio = [] := by
  simp only [vadSegs]
  rw [vadLoop_capacity_zero]
  simp [initState]

/-! Interleaving lemmas for the no-loss decomposition. -/

theorem interleaveJoin_cons_cons (g seg : List ClassifiedFrame)
    (gs segs : List (List ClassifiedFrame)) :
    interleaveJoin (g :: gs) (seg :: segs) =
      g ++ seg ++ interleaveJoin gs segs := rfl

theorem interleaveJoin_prepend (e g : List ClassifiedFrame)
    (gs segs : List (List ClassifiedFrame)) :
    e ++ interleaveJoin (g :: gs) segs =
      interleaveJoin ((e ++ g) :: gs) segs := by
  cases segs <;> simp [interleaveJoin]

theorem interleaveJoin_snoc_seg (segs gaps : List (List ClassifiedFrame))
    (h : gaps.length = segs.length + 1) (seg : List ClassifiedFrame) :
    interleaveJoin gaps segs ++ seg =
      interleaveJoin (gaps ++ [[]]) (segs ++ [seg]) := by
  induction segs generalizing gaps with
  | nil =>
      cases gaps with
      | nil => simp at h
      | cons g gs =>
          cases gs with
          | nil => simp [interleaveJoin]
          | cons g2 gs2 => simp at h
  | cons s ss ih =>
      cases gaps with
      | nil => simp at h
      | cons g gs =>
          simp only [List.length_cons, Nat.add_right_cancel_iff] at h
          simp only [List.cons_append, interleaveJoin, List.append_assoc]
          rw [ih gs h]
          rfl

theorem interleaveJoin_absorb_tail (segs gaps : List (List ClassifiedFrame))
    (h : gaps.length = segs.length + 1) (r : List ClassifiedFrame) :
    ∃ gaps2 : List (List ClassifiedFrame),
      gaps2.length = segs.length + 1 ∧
        interleaveJoin gaps segs ++ r = interleaveJoin gaps2 segs := by
  induction segs generalizing gaps with
  | nil =>
      cases gaps with
      | nil => simp at h
      | cons g gs =>
          cases gs with
          | nil => exact ⟨[g ++ r], by simp [interleaveJoin]⟩
          | cons g2 gs2 => simp at h
  | cons s ss ih =>
      cases gaps with
      | nil => simp at h
      | cons g gs =>
          simp only [List.length_cons, Nat.add_right_cancel_iff] at h
          obtain ⟨gaps2, hlen, heq⟩ := ih gs h
          refine ⟨g :: gaps2, by simp [hlen], ?_⟩
          simp only [interleaveJoin, List.append_assoc]
          rw [heq]

/-- Main decomposition invariant: from any invariant state, the pending
frames followed by the classified input equal the interleaving of some list
of gap (skipped) runs with the emitted segments, followed by the final
pending frames. -/
theorem vadLoop_decomp (vad : List Nat → Nat → Bool) (sr : Nat)
    (frames : List Frame) (s : VadState) (hs : StateInv s) :
    ∃ gaps : List (List ClassifiedFrame),
      gaps.length = (vadLoop vad sr s frames).2.length + 1 ∧
        pending s ++ frames.map (classifyFrame vad sr) =
          interleaveJoin gaps (vadLoop vad sr s frames).2 ++
            pending (vadLoop vad sr s frames).1 := by
  induction frames generalizing s with
  | nil =>
      refine ⟨[[]], by simp [vadLoop_nil], ?_⟩
      simp [vadLoop_nil, interleaveJoin]
  | cons f rest ih =>
      rw [vadLoop_cons]
      apply vadStep_cases vad sr s f
        (motive := fun r =>
          ∃ gaps : List (List ClassifiedFrame),
            gaps.length =
              (r.2.toList ++ (vadLoop vad sr r.1 rest).2).length + 1 ∧
              pending s ++ (f :: rest).map (classifyFrame vad sr) =
                interleaveJoin gaps
                  (r.2.toList ++ (vadLoop vad sr r.1 rest).2) ++
                  pending (vadLoop vad sr r.1 rest).1)
      · -- not triggered, no fire: the appended deque may evict; evicted
        -- frames extend the current gap.
        intro ht _
        have hvf0 : s.voiced_frames = [] := hs.1 ht
        have hinvS : StateInv { s with ring_buffer := deque_append s.maxlen s.ring_buffer (classifyFrame vad sr f) } :=
          ⟨fun _ => hvf0, fun h2 => by simp [ht] at h2⟩
        obtain ⟨gaps, hlen, heq⟩ := ih _ hinvS
        cases gaps with
        | nil => simp at hlen
        | cons g gs =>
            refine ⟨((s.ring_buffer ++ [classifyFrame vad sr f]).take ((s.ring_buffer ++ [classifyFrame vad sr f]).length - s.maxlen) ++ g) :: gs, by simpa using hlen, ?_⟩
            have hpend : pending s = s.ring_buffer := by simp [pending, ht]
            have hpendS : pending { s with ring_buffer := deque_append s.maxlen s.ring_buffer (classifyFrame vad sr f) } = deque_append s.maxlen s.ring_buffer (classifyFrame vad sr f) := by
              simp [pending, ht]
            rw [hpendS] at heq
            rw [hpend]
            simp only [List.map_cons, Option.toList_none, List.nil_append]
            rw [← interleaveJoin_prepend, List.append_assoc, ← heq,
              ← List.append_assoc, ← deque_append_decomp]
            simp
      · -- fire: the whole deque becomes the accumulator; evicted frames
        -- extend the current gap; nothing is emitted yet.
        intro ht hfull hv
        have hvf0 : s.voiced_frames = [] := hs.1 ht
        have hm1 : 1 ≤ s.maxlen := maxlen_pos_of_fire s.maxlen _ hfull hv
        have hinvS : StateInv { maxlen := s.maxlen, ring_buffer := [], triggered := true, voiced_frames := s.voiced_frames ++ deque_append s.maxlen s.ring_buffer (classifyFrame vad sr f) } :=
          ⟨fun h2 => by simp at h2, fun _ => ⟨hm1, by simp [hvf0, hfull]⟩⟩
        obtain ⟨gaps, hlen, heq⟩ := ih _ hinvS
        cases gaps with
        | nil => simp at hlen
        | cons g gs =>
            refine ⟨((s.ring_buffer ++ [classifyFrame vad sr f]).take ((s.ring_buffer ++ [classifyFrame vad sr f]).length - s.maxlen) ++ g) :: gs, by simpa using hlen, ?_⟩
            have hpend : pending s = s.ring_buffer := by simp [pending, ht]
            have hpendS : pending { maxlen := s.maxlen, ring_buffer := [], triggered := true, voiced_frames := s.voiced_frames ++ deque_append s.maxlen s.ring_buffer (classifyFrame vad sr f) } = deque_append s.maxlen s.ring_buffer (classifyFrame vad sr f) := by
              simp [pending, hvf0]
            rw [hpendS] at heq
            rw [hpend]
            simp only [List.map_cons, Option.toList_none, List.nil_append]
            rw [← interleaveJoin_prepend, List.append_assoc, ← heq,
              ← List.append_assoc, ← deque_append_decomp]
            simp
      · -- release: the accumulator plus the current frame is emitted as a
        -- segment; a fresh empty gap is opened.
        intro ht hu
        have hinvS : StateInv { maxlen := s.maxlen, ring_buffer := [], triggered := false, voiced_frames := ([] : List ClassifiedFrame) } :=
          ⟨fun _ => rfl, fun h2 => by simp at h2⟩
        obtain ⟨gaps, hlen, heq⟩ := ih _ hinvS
        refine ⟨[] :: gaps, by simpa using hlen, ?_⟩
        have hpend : pending s = s.voiced_frames := by simp [pending, ht]
        have hpendS : pending { maxlen := s.maxlen, ring_buffer := [], triggered := false, voiced_frames := ([] : List ClassifiedFrame) } = ([] : List ClassifiedFrame) := by
          simp [pending]
        rw [hpendS] at heq
        simp only [List.nil_append] at heq
        rw [hpend]
        simp only [List.map_cons, Option.toList_some, List.singleton_append]
        rw [interleaveJoin_cons_cons, List.nil_append, List.append_assoc,
          ← heq]
        simp
      · -- triggered, no release: the current frame joins the accumulator.
        intro ht hu
        have h2 := hs.2 ht
        have hinvS : StateInv { s with ring_buffer := deque_append s.maxlen s.ring_buffer (classifyFrame vad sr f), voiced_frames := s.voiced_frames ++ [classifyFrame vad sr f] } := by
          refine ⟨fun h3 => by simp [ht] at h3, fun _ => ⟨h2.1, ?_⟩⟩
          simp only [List.length_append, List.length_cons, List.length_nil]
          omega
        obtain ⟨gaps, hlen, heq⟩ := ih _ hinvS
        refine ⟨gaps, by simpa using hlen, ?_⟩
        have hpend : pending s = s.voiced_frames := by simp [pending, ht]
        have hpendS : pending { s with ring_buffer := deque_append s.maxlen s.ring_buffer (classifyFrame vad sr f), voiced_frames := s.voiced_frames ++ [classifyFrame vad sr f] } = s.voiced_frames ++ [classifyFrame vad sr f] := by
          simp [pending, ht]
        rw [hpendS] at heq
        rw [hpend]
        simp only [List.map_cons, Option.toList_none, List.nil_append]
        rw [← heq]
        simp

/-- Segment/gap partition of a whole run: the classified input is the
interleaving of the emitted segments (flush included) with skipped-frame
gaps. -/
theorem vadSegs_decomp (vad : List Nat → Nat → Bool) (sr : Nat) (m : Nat)
    (audio : List Frame) :
    ∃ gaps : List (List ClassifiedFrame),
      gaps.length = (vadSegs vad sr m audio).length + 1 ∧
        audio.map (classifyFrame vad sr) =
          interleaveJoin gaps (vadSegs vad sr m audio) := by
  obtain ⟨gaps, hlen, heq⟩ :=
    vadLoop_decomp vad sr audio (initState m) (stateInv_init m)
  have hpend0 : pending (initState m) = [] := by simp [pending, initState]
  rw [hpend0] at heq
  simp only [List.nil_append] at heq
  by_cases hvf : (vadLoop vad sr (initState m) audio).1.voiced_frames = []
  · have hsegs : vadSegs vad sr m audio =
        (vadLoop vad sr (initState m) audio).2 := by
      simp [vadSegs, hvf]
    cases ht : (vadLoop vad sr (initState m) audio).1.triggered with
    | false =>
        have hpf : pending (vadLoop vad sr (initState m) audio).1 =
            (vadLoop vad sr (initState m) audio).1.ring_buffer := by
          simp [pending, ht]
        rw [hpf] at heq
        obtain ⟨gaps2, hlen2, heq2⟩ :=
          interleaveJoin_absorb_tail (vadLoop vad sr (initState m) audio).2
            gaps hlen (vadLoop vad sr (initState m) audio).1.ring_buffer
        rw [hsegs]
        exact ⟨gaps2, hlen2, by rw [heq, heq2]⟩
    | true =>
        have hpf : pending (vadLoop vad sr (initState m) audio).1 =
            (vadLoop vad sr (initState m) audio).1.voiced_frames := by
          simp [pending, ht]
        rw [hpf, hvf, List.append_nil] at heq
        rw [hsegs]
        exact ⟨gaps, hlen, heq⟩
  · have hsegs : vadSegs vad sr m audio =
        (vadLoop vad sr (initState m) audio).2 ++
          [(vadLoop vad sr (initState m) audio).1.voiced_frames] := by
      simp [vadSegs, hvf]
    cases ht : (vadLoop vad sr (initState m) audio).1.triggered with
    | false =>
        have hinv := stateInv_loop vad sr audio (initState m) (stateInv_init m)
        exact absurd (hinv.1 ht) hvf
    | true =>
        have hpf : pending (vadLoop vad sr (initState m) audio).1 =
            (vadLoop vad sr (initState m) audio).1.voiced_frames := by
          simp [pending, ht]
        rw [hpf] at heq
        rw [hsegs]
        refine ⟨gaps ++ [[]], by simp [hlen], ?_⟩
        rw [heq, interleaveJoin_snoc_seg (vadLoop vad sr (initState m) audio).2
          gaps hlen]

/-- An untriggered state emits nothing on the next step: the `yield` sits in
the triggered branch only. -/
theorem vadStep_none_of_not_triggered (vad : List Nat → Nat → Bool)
    (sr : Nat) (s : VadState) (f : Frame) (ht : s.triggered = false) :
    (vadStep vad sr s f).2 = none := by
  apply vadStep_cases vad sr s f (motive := fun r => r.2 = none)
  · intro _ _; rfl
  · intro _ _ _; rfl
  · intro h2 _; simp [h2] at ht
  · intro _ _; rfl

/-- A triggered state leaves a trace: the loop from it either emits a
segment or ends with a non-empty accumulator. -/
theorem vadLoop_produces_of_triggered (vad : List Nat → Nat → Bool)
    (sr : Nat) (frames : List Frame) (s : VadState) (hs : StateInv s)
    (ht : s.triggered = true) :
    (vadLoop vad sr s frames).2 ≠ [] ∨
      (vadLoop vad sr s frames).1.voiced_frames ≠ [] := by
  induction frames generalizing s with
  | nil =>
      right
      rw [vadLoop_nil]
      intro h0
      have h1 := (hs.2 ht).1
      have h2 := (hs.2 ht).2
      rw [h0] at h2
      simp at h2
      omega
  | cons f rest ih =>
      rw [vadLoop_cons]
      apply vadStep_cases vad sr s f (motive := fun r =>
        (r.2.toList ++ (vadLoop vad sr r.1 rest).2) ≠ [] ∨
          (vadLoop vad sr r.1 rest).1.voiced_frames ≠ [])
      · intro h2 _; simp [h2] at ht
      · intro h2 _ _; simp [h2] at ht
      · intro _ _; left; simp
      · intro _ hu
        have h2 := hs.2 ht
        have hinvS : StateInv { s with ring_buffer := deque_append s.maxlen s.ring_buffer (classifyFrame vad sr f), voiced_frames := s.voiced_frames ++ [classifyFrame vad sr f] } := by
          refine ⟨fun h3 => by simp [ht] at h3, fun _ => ⟨h2.1, ?_⟩⟩
          simp only [List.length_append, List.length_cons, List.length_nil]
          omega
        rcases ih _ hinvS ht with h | h
        · left
          simp only [Option.toList_none, List.nil_append]
          exact h
        · right
          exact h

/-- If every state along the run is untriggered, nothing is emitted and the
accumulator ends empty. -/
theorem vadLoop_none_of_all_untriggered (vad : List Nat → Nat → Bool)
    (sr : Nat) (frames : List Frame) (s : VadState) (hs : StateInv s)
    (hall : ∀ t ∈ runStates vad sr s frames, t.triggered = false) :
    (vadLoop vad sr s frames).2 = [] ∧
      (vadLoop vad sr s frames).1.voiced_frames = [] := by
  induction frames generalizing s with
  | nil =>
      have hts : s.triggered = false :=
        hall s (by rw [runStates_nil]; simp)
      exact ⟨rfl, hs.1 hts⟩
  | cons f rest ih =>
      have hts : s.triggered = false :=
        hall s (by rw [runStates_cons]; simp)
      have hnone := vadStep_none_of_not_triggered vad sr s f hts
      have hall2 : ∀ t ∈ runStates vad sr (vadStep vad sr s f).1 rest,
          t.triggered = false := by
        intro t htm
        exact hall t (by rw [runStates_cons]; exact List.mem_cons_of_mem s htm)
      have hIH := ih _ (stateInv_step vad sr s f hs) hall2
      rw [vadLoop_cons]
      exact ⟨by simp only [hnone, Option.toList_none, List.nil_append]; exact hIH.1,
        hIH.2⟩

/-- Conversely, a run with no emissions and an empty final accumulator never
passed through a triggered state. -/
theorem all_untriggered_of_no_output (vad : List Nat → Nat → Bool)
    (sr : Nat) (frames : List Frame) (s : VadState) (hs : StateInv s)
    (houts : (vadLoop vad sr s frames).2 = [])
    (hvf : (vadLoop vad sr s frames).1.voiced_frames = []) :
    ∀ t ∈ runStates vad sr s frames, t.triggered = false := by
  induction frames generalizing s with
  | nil =>
      intro t htm
      rw [runStates_nil] at htm
      simp at htm
      subst htm
      cases hts : t.triggered with
      | false => rfl
      | true =>
          have h1 := (hs.2 hts).1
          have h2 := (hs.2 hts).2
          rw [vadLoop_nil] at hvf
          rw [hvf] at h2
          simp at h2
          omega
  | cons f rest ih =>
      have hts : s.triggered = false := by
        cases hts : s.triggered with
        | false => rfl
        | true =>
            exfalso
            rcases vadLoop_produces_of_triggered vad sr (f :: rest) s hs hts
              with h | h
            · exact h houts
            · exact h hvf
      have houts2 : (vadStep vad sr s f).2.toList ++
          (vadLoop vad sr (vadStep vad sr s f).1 rest).2 = [] := houts
      have hvf2 : (vadLoop vad sr (vadStep vad sr s f).1 rest).1.voiced_frames
          = [] := hvf
      have hout_nil : (vadLoop vad sr (vadStep vad sr s f).1 rest).2 = [] :=
        (List.append_eq_nil.mp houts2).2
      intro t htm
      rw [runStates_cons] at htm
      rcases List.mem_cons.1 htm with h | h
      · rw [h]; exact hts
      · exact ih _ (stateInv_step vad sr s f hs) hout_nil hvf2 t h

/-! The claims. -/

/-- C1: in the `NOT_TRIGGERED` state with the ring buffer full at capacity
`c ≥ 1` holding exactly `k` speech-classified frames, the trigger fires if
and only if `k > 0.9 * c`, a strict comparison on the integer count (here in
the exact form `10 * k > 9 * c`); at capacity 10, `k = 9` does not fire and
`k = 10` does. -/
theorem C1_trigger_threshold (vad : List Nat → Nat → Bool) (sr : Nat)
    (s : VadState) (frame : Frame) (k : Nat) (hc : 1 ≤ s.maxlen)
    (ht : s.triggered = false)
    (hfull : (deque_append s.maxlen s.ring_buffer
        (classifyFrame vad sr frame)).length = s.maxlen)
    (hk : num_voiced (deque_append s.maxlen s.ring_buffer
        (classifyFrame vad sr frame)) = k) :
    (vadStep vad sr s frame).1.triggered = true ↔ 10 * k > 9 * s.maxlen := by
  subst hk
  constructor
  · intro hfired
    by_contra hv
    rw [vadStep_nf_nofire vad sr s frame ht hfull hv] at hfired
    simp [ht] at hfired
  · intro hv
    rw [vadStep_fire vad sr s frame ht hfull hv]

/-- Witness for C1 at capacity 10: a tenth speech frame fires the trigger
(`k = 10`), while a non-speech tenth frame leaves `k = 9` and does not. -/
theorem C1_trigger_threshold_witness :
    ((vadStep testVad 8000 stateNine speechFrame).1.triggered = true ↔
      10 * 10 > 9 * stateNine.maxlen) ∧
    ((vadStep testVad 8000 stateNine silenceFrame).1.triggered = true ↔
      10 * 9 > 9 * stateNine.maxlen) :=
  ⟨C1_trigger_threshold testVad 8000 stateNine speechFrame 10 (by decide)
      (by decide) (by decide) (by decide),
    C1_trigger_threshold testVad 8000 stateNine silenceFrame 9 (by decide)
      (by decide) (by decide) (by decide)⟩

/-- C2: when the `NOT_TRIGGERED → TRIGGERED` transition fires (buffer full,
speech count strictly above `0.9 * capacity`), the whole current ring-buffer
contents are appended in order to the accumulator, the ring buffer is
cleared, the state becomes triggered, and nothing is emitted. -/
theorem C2_fire_moves_buffer (vad : List Nat → Nat → Bool) (sr : Nat)
    (s : VadState) (frame : Frame) (ht : s.triggered = false)
    (hfull : (deque_append s.maxlen s.ring_buffer
        (classifyFrame vad sr frame)).length = s.maxlen)
    (hv : 10 * num_voiced (deque_append s.maxlen s.ring_buffer
        (classifyFrame vad sr frame)) > 9 * s.maxlen) :
    (vadStep vad sr s frame).1.voiced_frames =
        s.voiced_frames ++
          deque_append s.maxlen s.ring_buffer (classifyFrame vad sr frame) ∧
      (vadStep vad sr s frame).1.ring_buffer = [] ∧
      (vadStep vad sr s frame).1.triggered = true ∧
      (vadStep vad sr s frame).2 = none := by
  rw [vadStep_fire vad sr s frame ht hfull hv]
  exact ⟨rfl, rfl, rfl, rfl⟩

/-- Witness for C2: firing from `stateNine` on a tenth speech frame moves
all ten buffered frames into the accumulator and clears the buffer. -/
theorem C2_fire_moves_buffer_witness :
    (vadStep testVad 8000 stateNine speechFrame).1.voiced_frames =
        stateNine.voiced_frames ++
          deque_append stateNine.maxlen stateNine.ring_buffer
            (classifyFrame testVad 8000 speechFrame) ∧
      (vadStep testVad 8000 stateNine speechFrame).1.ring_buffer = [] ∧
      (vadStep testVad 8000 stateNine speechFrame).1.triggered = true ∧
      (vadStep testVad 8000 stateNine speechFrame).2 = none :=
  C2_fire_moves_buffer testVad 8000 stateNine speechFrame (by decide)
    (by decide) (by decide)

/-- C3: in the `TRIGGERED` state the incoming classified frame is appended
to both the accumulator and the ring buffer; if the non-speech count of the
buffer then strictly exceeds `0.9 * capacity`, the machine emits the whole
accumulator (whose byte buffer is the concatenation of its frames' bytes in
arrival order), clears both accumulator and ring buffer, and returns to
`NOT_TRIGGERED`; otherwise it stays triggered with both extended. -/
theorem C3_release (vad : List Nat → Nat → Bool) (sr : Nat) (s : VadState)
    (frame : Frame) (ht : s.triggered = true) :
    (10 * num_unvoiced (deque_append s.maxlen s.ring_buffer
        (classifyFrame vad sr frame)) > 9 * s.maxlen →
      vadStep vad sr s frame =
        ({ maxlen := s.maxlen, ring_buffer := [], triggered := false,
           voiced_frames := [] },
          some (s.voiced_frames ++ [classifyFrame vad sr frame])) ∧
        ((vadStep vad sr s frame).2).map seg_bytes =
          some (seg_bytes (s.voiced_frames ++ [classifyFrame vad sr frame])))
    ∧ (¬ 10 * num_unvoiced (deque_append s.maxlen s.ring_buffer
        (classifyFrame vad sr frame)) > 9 * s.maxlen →
      vadStep vad sr s frame =
        ({ s with
            ring_buffer :=
              deque_append s.maxlen s.ring_buffer (classifyFrame vad sr frame),
            voiced_frames := s.voiced_frames ++ [classifyFrame vad sr frame] },
          none)) := by
  constructor
  · intro hu
    rw [vadStep_t_release vad sr s frame ht hu]
    exact ⟨rfl, rfl⟩
  · intro hu
    exact vadStep_t_stay vad sr s frame ht hu

/-- Witness for C3: from the triggered capacity-1 state `stateTrig`, a
non-speech frame releases the trigger and emits the two accumulated
frames. -/
theorem C3_release_witness :
    (10 * num_unvoiced (deque_append stateTrig.maxlen stateTrig.ring_buffer
        (classifyFrame testVad 8000 silenceFrame)) > 9 * stateTrig.maxlen →
      vadStep testVad 8000 stateTrig silenceFrame =
        ({ maxlen := stateTrig.maxlen, ring_buffer := [], triggered := false,
           voiced_frames := [] },
          some (stateTrig.voiced_frames ++
            [classifyFrame testVad 8000 silenceFrame])) ∧
        ((vadStep testVad 8000 stateTrig silenceFrame).2).map seg_bytes =
          some (seg_bytes (stateTrig.voiced_frames ++
            [classifyFrame testVad 8000 silenceFrame])))
    ∧ (¬ 10 * num_unvoiced (deque_append stateTrig.maxlen
        stateTrig.ring_buffer (classifyFrame testVad 8000 silenceFrame)) >
        9 * stateTrig.maxlen →
      vadStep testVad 8000 stateTrig silenceFrame =
        ({ stateTrig with
            ring_buffer := deque_append stateTrig.maxlen stateTrig.ring_buffer
              (classifyFrame testVad 8000 silenceFrame),
            voiced_frames := stateTrig.voiced_frames ++
              [classifyFrame testVad 8000 silenceFrame] },
          none)) :=
  C3_release testVad 8000 stateTrig silenceFrame (by decide)

/-- C4: at end of input the generator flushes: if the accumulator is
non-empty exactly one extra segment is emitted, equal to the concatenated
bytes of the accumulated frames (no trailing padding, no minimum-length or
trigger-fraction check); if it is empty nothing extra is emitted; and an
input ending while still triggered always has a non-empty accumulator, so
it always yields that final segment. -/
theorem C4_flush (vad : List Nat → Nat → Bool) (sr : Nat)
    (frame_duration_ms padding_duration_ms : Nat) (audio : List Frame) :
    ((vadLoop vad sr
        (initState (num_padding_frames padding_duration_ms frame_duration_ms))
        audio).1.voiced_frames = [] →
      vad_audio vad audio sr frame_duration_ms padding_duration_ms =
        (vadLoop vad sr (initState
          (num_padding_frames padding_duration_ms frame_duration_ms))
          audio).2.map seg_bytes)
    ∧ ((vadLoop vad sr
        (initState (num_padding_frames padding_duration_ms frame_duration_ms))
        audio).1.voiced_frames ≠ [] →
      vad_audio vad audio sr frame_duration_ms padding_duration_ms =
        (vadLoop vad sr (initState
          (num_padding_frames padding_duration_ms frame_duration_ms))
          audio).2.map seg_bytes ++
          [seg_bytes ((vadLoop vad sr (initState
            (num_padding_frames padding_duration_ms frame_duration_ms))
            audio).1.voiced_frames)])
    ∧ ((vadLoop vad sr
        (initState (num_padding_frames padding_duration_ms frame_duration_ms))
        audio).1.triggered = true →
      (vadLoop vad sr
        (initState (num_padding_frames padding_duration_ms frame_duration_ms))
        audio).1.voiced_frames ≠ []) := by
  refine ⟨?_, ?_, ?_⟩
  · intro h
    simp [vad_audio, vadSegs, h]
  · intro h
    simp [vad_audio, vadSegs, h]
  · intro h
    have hinv := stateInv_loop vad sr audio _ (stateInv_init
      (num_padding_frames padding_duration_ms frame_duration_ms))
    have h1 := (hinv.2 h).1
    have h2 := (hinv.2 h).2
    intro hnil
    rw [hnil] at h2
    simp only [List.length_nil, Nat.le_zero] at h2
    omega

/-- Witness for C4: the run on `audioC` ends still triggered, and the
output is the loop emissions plus one flushed final segment. -/
theorem C4_flush_witness :
    vad_audio testVad audioC 8000 30 300 =
      (vadLoop testVad 8000
        (initState (num_padding_frames 300 30)) audioC).2.map seg_bytes ++
        [seg_bytes ((vadLoop testVad 8000
          (initState (num_padding_frames 300 30)) audioC).1.voiced_frames)] :=
  (C4_flush testVad 8000 30 300 audioC).2.1 (by decide)

/-- C6: the segmentation is deterministic: two runs with the same
`frame_duration_ms` and `padding_duration_ms` that are fed the identical
sequence of `(frame, classification)` pairs (possibly through different
classifier functions or sample rates) produce byte-identical output
sequences. -/
theorem C6_deterministic (vad1 vad2 : List Nat → Nat → Bool) (sr1 sr2 : Nat)
    (frame_duration_ms padding_duration_ms : Nat) (a1 a2 : List Frame)
    (h : a1.map (classifyFrame vad1 sr1) = a2.map (classifyFrame vad2 sr2)) :
    vad_audio vad1 a1 sr1 frame_duration_ms padding_duration_ms =
      vad_audio vad2 a2 sr2 frame_duration_ms padding_duration_ms := by
  simp only [vad_audio, vadSegs]
  rw [vadLoop_congr vad1 vad2 sr1 sr2 a1 a2 _ h]

/-- Witness for C6: two different classifier functions assigning the same
verdicts to Scenario B's frames give byte-identical outputs. -/
theorem C6_deterministic_witness :
    vad_audio testVad audioB 8000 30 300 =
      vad_audio testVad2 audioB 16000 30 300 :=
  C6_deterministic testVad testVad2 8000 16000 30 300 audioB audioB
    (by decide)

/-- C7 counterexample: with `frame_duration_ms = 30` and
`padding_duration_ms = 20` (capacity `int(20/30) = 0`) the source raises no
error at all — there is no `ConfigurationError` or `raise` anywhere in
`vad_audio` — and the run completes normally, silently yielding no
segments even on all-speech input.  This refutes the claim that such a
configuration fails with `ConfigurationError` at construction. -/
theorem C7_counterexample :
    num_padding_frames 20 30 = 0 ∧
      vad_audio testVad (List.replicate 3 speechFrame) 8000 30 20 = [] := by
  constructor
  · decide
  · decide

/-- C7 amended: if `padding_duration_ms < frame_duration_ms` the ring-buffer
capacity computes to 0 and the function raises no error: the run is a silent
no-op, producing the empty output sequence on every input. -/
theorem C7_amended_silent_noop (vad : List Nat → Nat → Bool) (sr : Nat)
    (frame_duration_ms padding_duration_ms : Nat) (audio : List Frame)
    (h : padding_duration_ms < frame_duration_ms) :
    num_padding_frames padding_duration_ms frame_duration_ms = 0 ∧
      vad_audio vad audio sr frame_duration_ms padding_duration_ms = [] := by
  have h0 : num_padding_frames padding_duration_ms frame_duration_ms = 0 :=
    Nat.div_eq_of_lt h
  refine ⟨h0, ?_⟩
  simp only [vad_audio, h0]
  rw [vadSegs_capacity_zero]
  rfl

/-- Witness for the amended C7 at the counterexample configuration. -/
theorem C7_amended_silent_noop_witness :
    num_padding_frames 20 30 = 0 ∧
      vad_audio testVad audioC 8000 30 20 = [] :=
  C7_amended_silent_noop testVad 8000 30 20 audioC (by decide)

/-- C9: with capacity `c ≥ 1`, at every point of the run the accumulator is
either empty or holds at least `c` frames, and every emitted segment
(end-of-input flush included) holds at least `c` frames. -/
theorem C9_min_segment (vad : List Nat → Nat → Bool) (sr : Nat) (c : Nat)
    (audio : List Frame) (hc : 1 ≤ c) :
    (∀ t ∈ runStates vad sr (initState c) audio,
      t.voiced_frames = [] ∨ c ≤ t.voiced_frames.length) ∧
    (∀ seg ∈ vadSegs vad sr c audio, c ≤ seg.length) := by
  constructor
  · intro t htm
    have hinv := mem_runStates_inv vad sr audio (initState c)
      (stateInv_init c) t htm
    have hml := mem_runStates_maxlen vad sr audio (initState c) t htm
    cases h : t.triggered with
    | false => exact Or.inl (hinv.1 h)
    | true =>
        right
        have h2 := (hinv.2 h).2
        rw [hml] at h2
        exact h2
  · intro seg hseg
    simp only [vadSegs] at hseg
    rcases List.mem_append.1 hseg with h | h
    · have h3 := vadLoop_segs_len vad sr audio (initState c)
        (stateInv_init c) seg h
      exact h3.1
    · by_cases hvf : (vadLoop vad sr (initState c) audio).1.voiced_frames = []
      · rw [if_pos hvf] at h
        simp at h
      · rw [if_neg hvf] at h
        have hseg2 : seg = (vadLoop vad sr (initState c) audio).1.voiced_frames := by
          simpa using h
        subst hseg2
        have hinv := stateInv_loop vad sr audio (initState c) (stateInv_init c)
        have hml := vadLoop_maxlen vad sr audio (initState c)
        cases ht : (vadLoop vad sr (initState c) audio).1.triggered with
        | false => exact absurd (hinv.1 ht) hvf
        | true =>
            have h2 := (hinv.2 ht).2
            rw [hml] at h2
            exact h2

/-- Witness for C9 at capacity 10 on the Scenario D style input. -/
theorem C9_min_segment_witness :
    (∀ t ∈ runStates testVad 8000 (initState 10) audioC,
      t.voiced_frames = [] ∨ 10 ≤ t.voiced_frames.length) ∧
    (∀ seg ∈ vadSegs testVad 8000 10 audioC, 10 ≤ seg.length) :=
  C9_min_segment testVad 8000 10 audioC (by decide)

/-- C10: when the computed ring-buffer capacity is 0 the function raises no
error and yields the empty output sequence on every input (the speech count
0 is never strictly greater than `0.9 * 0`, so the trigger never fires and
every state of the run stays initial); the empty input likewise yields the
empty output under any configuration. -/
theorem C10_degenerate_capacity (vad : List Nat → Nat → Bool) (sr : Nat)
    (frame_duration_ms padding_duration_ms : Nat) (audio : List Frame) :
    (num_padding_frames padding_duration_ms frame_duration_ms = 0 →
      vad_audio vad audio sr frame_duration_ms padding_duration_ms = [] ∧
      ∀ t ∈ runStates vad sr (initState 0) audio, t = initState 0) ∧
    vad_audio vad [] sr frame_duration_ms padding_duration_ms = [] := by
  constructor
  · intro h
    constructor
    · simp only [vad_audio, h]
      rw [vadSegs_capacity_zero]
      rfl
    · exact runStates_capacity_zero vad sr audio
  · simp only [vad_audio, vadSegs, vadLoop_nil]
    simp [initState]

/-- Witness for C10: `frame_duration_ms = 30`, `padding_duration_ms = 20`
gives capacity 0 and empty output on an all-speech input. -/
theorem C10_degenerate_capacity_witness :
    vad_audio testVad (List.replicate 3 speechFrame) 8000 30 20 = [] ∧
      ∀ t ∈ runStates testVad 8000 (initState 0)
        (List.replicate 3 speechFrame), t = initState 0 :=
  (C10_degenerate_capacity testVad 8000 30 20
    (List.replicate 3 speechFrame)).1 (by decide)

/-- C5: no loss, no duplication: the output is exactly the per-segment byte
concatenation of the frame-level segments, and the classified input sequence
is reconstructed exactly by interleaving the emitted segments (in emission
order) with the skipped-silence gap runs (in arrival order) — so every frame
lands in at most one segment and none is duplicated or dropped. -/
theorem C5_no_loss (vad : List Nat → Nat → Bool) (sr : Nat)
    (frame_duration_ms padding_duration_ms : Nat) (audio : List Frame) :
    vad_audio vad audio sr frame_duration_ms padding_duration_ms =
      (vadSegs vad sr
        (num_padding_frames padding_duration_ms frame_duration_ms)
        audio).map seg_bytes ∧
    ∃ gaps : List (List ClassifiedFrame),
      gaps.length = (vadSegs vad sr
        (num_padding_frames padding_duration_ms frame_duration_ms)
        audio).length + 1 ∧
        audio.map (classifyFrame vad sr) =
          interleaveJoin gaps (vadSegs vad sr
            (num_padding_frames padding_duration_ms frame_duration_ms)
            audio) :=
  ⟨rfl, vadSegs_decomp vad sr
    (num_padding_frames padding_duration_ms frame_duration_ms) audio⟩

/-- C8: Scenario A (20 non-speech frames) and Scenario B (10 non-speech, 5
speech, 10 non-speech) at capacity 10 both produce the empty output; and in
general the output is empty exactly when the trigger condition is never met
(no state of the run is triggered). -/
theorem C8_under_threshold :
    vad_audio testVad audioA 8000 30 300 = [] ∧
    vad_audio testVad audioB 8000 30 300 = [] ∧
    ∀ (vad : List Nat → Nat → Bool) (sr : Nat)
      (frame_duration_ms padding_duration_ms : Nat) (audio : List Frame),
      (vad_audio vad audio sr frame_duration_ms padding_duration_ms = [] ↔
        ∀ t ∈ runStates vad sr
          (initState (num_padding_frames padding_duration_ms
            frame_duration_ms)) audio,
          t.triggered = false) := by
  refine ⟨by decide, by decide, ?_⟩
  intro vad sr frame_duration_ms padding_duration_ms audio
  constructor
  · intro h
    have hsegs : vadSegs vad sr
        (num_padding_frames padding_duration_ms frame_duration_ms) audio
        = [] := List.map_eq_nil_iff.mp h
    simp only [vadSegs] at hsegs
    have houts := (List.append_eq_nil.mp hsegs).1
    have hflush := (List.append_eq_nil.mp hsegs).2
    have hvf : (vadLoop vad sr
        (initState (num_padding_frames padding_duration_ms frame_duration_ms))
        audio).1.voiced_frames = [] := by
      by_cases hv : (vadLoop vad sr
          (initState (num_padding_frames padding_duration_ms
            frame_duration_ms)) audio).1.voiced_frames = []
      · exact hv
      · rw [if_neg hv] at hflush
        simp at hflush
    exact all_untriggered_of_no_output vad sr audio _
      (stateInv_init _) houts hvf
  · intro hall
    have h := vadLoop_none_of_all_untriggered vad sr audio _
      (stateInv_init _) hall
    simp [vad_audio, vadSegs, h.1, h.2]

example : vad_audio testVad audioA 8000 30 300 = [] := by decide

example : vad_audio testVad audioB 8000 30 300 = [] := by decide

example : vad_audio testVad audioC 8000 30 300 ≠ [] := by decide
